import Mathlib

/-!
Verification development for the ASML reticle template / barcode script
(`ASMLtemplate_barcode_v2.py`).  The pure core of the script is embedded
shallowly: Python floats become exact rationals (all constants involved
are decimal literals times `scale = 1e3`, hence exact), Python strings
become `String` / `List Char`, the symbology dictionary becomes an
association list, sets of (layer, datatype) pairs become `Finset (ℕ × ℕ)`,
and fallible operations (dictionary `KeyError`, bounding boxes of empty
polygon lists) are modelled with `Option`.
-/

namespace Reticle

/-- Source `scale = 1e3`.  The decimal constants of the source are all
exact, and each is stated here as its exact value in database units (the
source expression is in the doc comment), because `Rat` multiplication
does not reduce in the kernel. -/
def scale : ℚ := 1000

/-- Source `x0 = 69 * scale`. -/
def x0 : ℚ := 69000

/-- Source `y = (29.15 + 48.3 / 2) * scale`. -/
def y : ℚ := 53300

/-- Source `barheight = 5 * scale`: vertical extent of every barcode bar. -/
def barheight : ℚ := 5000

/-- Source `quiet_zone = 8 * scale`. -/
def quiet_zone : ℚ := 8000

/-- Source `x0_hrc = -69.5 * scale`. -/
def x0_hrc : ℚ := -69500

/-- Source `y1_hrc = 37.5 * scale`. -/
def y1_hrc : ℚ := 37500

/-- Source `y2_hrc = -37.5 * scale`. -/
def y2_hrc : ℚ := -37500

/-- Wide bar token: `wb = 0.450 * scale`. -/
def wb : ℚ := 450

/-- Narrow space token: `ns = -0.200 * scale`. -/
def ns : ℚ := -200

/-- Narrow bar token: `nb = 0.200 * scale`. -/
def nb : ℚ := 200

/-- Wide space token: `ws = -0.450 * scale`. -/
def ws : ℚ := -450

/-- The Code-39 start/stop sentinel pattern. -/
def startstop : List ℚ := [nb, ws, nb, ns, wb, ns, wb, ns, nb, ns]

/-- The `codedict` dictionary literal of the source, as an association
list in the key order of the source. -/
def codeTable : List (Char × List ℚ) := [
  ('A', [wb, ns, nb, ns, nb, ws, nb, ns, wb, ns]),
  ('B', [nb, ns, wb, ns, nb, ws, nb, ns, wb, ns]),
  ('C', [wb, ns, wb, ns, nb, ws, nb, ns, nb, ns]),
  ('D', [nb, ns, nb, ns, wb, ws, nb, ns, wb, ns]),
  ('E', [wb, ns, nb, ns, wb, ws, nb, ns, nb, ns]),
  ('F', [nb, ns, wb, ns, wb, ws, nb, ns, nb, ns]),
  ('G', [nb, ns, nb, ns, nb, ws, wb, ns, wb, ns]),
  ('H', [wb, ns, nb, ns, nb, ws, wb, ns, nb, ns]),
  ('I', [nb, ns, wb, ns, nb, ws, wb, ns, nb, ns]),
  ('J', [nb, ns, nb, ns, wb, ws, wb, ns, nb, ns]),
  ('K', [wb, ns, nb, ns, nb, ns, nb, ws, wb, ns]),
  ('L', [nb, ns, wb, ns, nb, ns, nb, ws, wb, ns]),
  ('M', [wb, ns, wb, ns, nb, ns, nb, ws, nb, ns]),
  ('N', [nb, ns, nb, ns, wb, ns, nb, ws, wb, ns]),
  ('O', [wb, ns, nb, ns, wb, ns, nb, ws, nb, ns]),
  ('P', [nb, ns, wb, ns, wb, ns, nb, ws, nb, ns]),
  ('Q', [nb, ns, nb, ns, nb, ns, wb, ws, wb, ns]),
  ('R', [wb, ns, nb, ns, nb, ns, wb, ws, nb, ns]),
  ('S', [nb, ns, wb, ns, nb, ns, wb, ws, nb, ns]),
  ('T', [nb, ns, nb, ns, wb, ns, wb, ws, nb, ns]),
  ('U', [wb, ws, nb, ns, nb, ns, nb, ns, wb, ns]),
  ('V', [nb, ws, wb, ns, nb, ns, nb, ns, wb, ns]),
  ('W', [wb, ws, wb, ns, nb, ns, nb, ns, nb, ns]),
  ('X', [nb, ws, nb, ns, wb, ns, nb, ns, wb, ns]),
  ('Y', [wb, ws, nb, ns, wb, ns, nb, ns, nb, ns]),
  ('Z', [nb, ws, wb, ns, wb, ns, nb, ns, nb, ns]),
  ('1', [wb, ns, nb, ws, nb, ns, nb, ns, wb, ns]),
  ('2', [nb, ns, wb, ws, nb, ns, nb, ns, wb, ns]),
  ('3', [wb, ns, wb, ws, nb, ns, nb, ns, nb, ns]),
  ('4', [nb, ns, nb, ws, wb, ns, nb, ns, wb, ns]),
  ('5', [wb, ns, nb, ws, wb, ns, nb, ns, nb, ns]),
  ('6', [nb, ns, wb, ws, wb, ns, nb, ns, nb, ns]),
  ('7', [nb, ns, nb, ws, nb, ns, wb, ns, wb, ns]),
  ('8', [wb, ns, nb, ws, nb, ns, wb, ns, nb, ns]),
  ('9', [nb, ns, wb, ws, nb, ns, wb, ns, nb, ns]),
  ('0', [nb, ns, nb, ws, wb, ns, wb, ns, nb, ns]),
  ('-', [nb, ws, nb, ns, nb, ns, wb, ns, wb, ns]),
  ('.', [wb, ws, nb, ns, nb, ns, wb, ns, nb, ns]),
  ('$', [nb, ws, nb, ws, nb, ws, nb, ns, nb, ns]),
  ('/', [nb, ws, nb, ws, nb, ns, nb, ws, nb, ns]),
  ('+', [nb, ws, nb, ns, nb, ws, nb, ws, nb, ns]),
  ('%', [nb, ns, nb, ws, nb, ws, nb, ws, nb, ns]),
  (' ', [nb, ws, wb, ns, nb, ns, wb, ns, nb, ns])]

/-- Dictionary lookup `codedict[c]`; `none` models a Python `KeyError`. -/
def codedict (c : Char) : Option (List ℚ) :=
  (codeTable.find? (fun e => e.1 == c)).map Prod.snd

/-- The alphabet as the spec lists it: A–Z, 0–9, the specials
`- . $ / + %`, and space. -/
def specAlphabet : List Char :=
  ("ABCDEFGHIJKLMNOPQRSTUVWXYZ0123456789-.$/+% ").data

/-- The loop body of `str2code`: the concatenation of `codedict[char]`
for the characters of the input in order; `none` if any lookup raises
`KeyError`. -/
def encodeChars : List Char → Option (List ℚ)
  | [] => some []
  | c :: cs =>
    match codedict c, encodeChars cs with
    | some p, some rest => some (p ++ rest)
    | _, _ => none

/-- Function `str2code`: start/stop pattern, the pattern of each
character in order, start/stop pattern again; `none` models a `KeyError`
escaping. -/
def str2code (str2wrt : List Char) : Option (List ℚ) :=
  (encodeChars str2wrt).map (fun mid => startstop ++ mid ++ startstop)

/-- The concatenation of the looked-up patterns of a character list, used
to state what the encoder returns. -/
def flatPatterns (l : List Char) : List ℚ :=
  (l.map (fun c => (codedict c).getD [])).flatten

/-- An axis-aligned rectangle tagged with a (layer, datatype) pair, as
produced by `gdstk.rectangle((x1, y1), (x2, y2), layer, datatype)`. -/
structure Rect where
  x1 : ℚ
  y1 : ℚ
  x2 : ℚ
  y2 : ℚ
  layer : ℕ
  datatype : ℕ
deriving DecidableEq, Repr

/-- The loop of `barcad`, with the running cursor `xcurr` explicit:
a positive token emits a rectangle `[xcurr, xcurr + x] × [-barheight/2,
barheight/2]`; every token advances the cursor by `|x|`. -/
def barcadFrom (layer_num datatype_num : ℕ) : List ℚ → ℚ → List Rect
  | [], _ => []
  | x :: rest, xcurr =>
    (if 0 < x then
      [⟨xcurr, -(barheight / 2), xcurr + x, barheight / 2, layer_num, datatype_num⟩]
     else []) ++ barcadFrom layer_num datatype_num rest (xcurr + |x|)

/-- Function `barcad`: the list of rectangles added to the BARCODE cell,
with the cursor starting at 0. -/
def barcad (barcode : List ℚ) (layer_num : ℕ) (datatype_num : ℕ := 0) : List Rect :=
  barcadFrom layer_num datatype_num barcode 0

/-- Sum of the magnitudes of a token list. -/
def sumAbs (toks : List ℚ) : ℚ := (toks.map (fun t => |t|)).sum

/-- The final value of the cursor `xcurr` after the `barcad` loop. -/
def finalCursor (toks : List ℚ) : ℚ := toks.foldl (fun a t => a + |t|) 0

/-- The renderer exactly as the claim words it, written as a second,
clearly separate definition to be compared with the embedded `barcad`:
a positive token emits a rectangle spanning `[x, x + |token|]`
horizontally and `[-barheight/2, barheight/2]` vertically, and every
token advances the cursor `x` by `|token|` regardless of sign. -/
def renderSpec (layer_num datatype_num : ℕ) : List ℚ → ℚ → List Rect
  | [], _ => []
  | tok :: rest, x =>
    (if 0 < tok then
      [⟨x, -(barheight / 2), x + |tok|, barheight / 2, layer_num, datatype_num⟩]
     else []) ++ renderSpec layer_num datatype_num rest (x + |tok|)

/-- A (layer, datatype) pair. -/
abbrev LD := ℕ × ℕ

/-- The reserved pair for barcode geometry: `barcode_layer_datatype = (4, 0)`. -/
def barcode_layer_datatype : LD := (4, 0)

/-- Set `all_template_layers_datatypes`: the pairs of the template
together with the reserved barcode pair. -/
def all_template_layers_datatypes (template : Finset LD) : Finset LD :=
  template ∪ {barcode_layer_datatype}

/-- Set `conflicts`: pairs used by both the user design and the template
(reserved pair included). -/
def conflicts (user template : Finset LD) : Finset LD :=
  user ∩ all_template_layers_datatypes template

/-- Source `max(user_layers) if user_layers else 0`. -/
def max_user_layer (user : Finset LD) : ℕ :=
  if h : (user.image Prod.fst).Nonempty then (user.image Prod.fst).max' h else 0

/-- Source `new_layer = max_user_layer + 1`. -/
def new_layer (user : Finset LD) : ℕ := max_user_layer user + 1

/-- The remap dictionary: every template pair (reserved included) is sent
to `(new_layer, original datatype)`. -/
def remap_dict (user template : Finset LD) : Finset (LD × LD) :=
  (all_template_layers_datatypes template).image (fun old => (old, (new_layer user, old.2)))

/-- The layer-conflict resolution block of `__main__`: returns the remap
dictionary (`none` when no conflict, hence no remapping) and the
`barcode_target_layer`. -/
def resolve (user template : Finset LD) : Option (Finset (LD × LD)) × ℕ :=
  if (conflicts user template).Nonempty then
    (some (remap_dict user template), new_layer user)
  else
    (none, barcode_layer_datatype.1)

/-- The two recoverable barcode validation errors, each carrying the
offending value, mirroring `InvalidBarcodeLength` and
`InvalidBarcodeCharacter`. -/
inductive BarcodeError where
  | invalidLength (barcode : String)
  | invalidCharacter (character : Char)
deriving DecidableEq, Repr

/-- The validation performed by the barcode input loop of `__main__` on
the upper-cased input: length bound first, then the character-set check,
raising on the first offending character in scan order. -/
def validateBarcode (barcode_label : String) : Option BarcodeError :=
  if ¬(1 ≤ barcode_label.length ∧ barcode_label.length ≤ 12) then
    some (BarcodeError.invalidLength barcode_label)
  else if barcode_label.data.all (fun c => (codedict c).isSome) then
    none
  else
    match barcode_label.data.find? (fun c => !(codedict c).isSome) with
    | some c => some (BarcodeError.invalidCharacter c)
    | none => none

/-- An axis-aligned bounding box. -/
structure BBox where
  minx : ℚ
  miny : ℚ
  maxx : ℚ
  maxy : ℚ
deriving DecidableEq, Repr

/-- Fold one polygon point into a bounding box. -/
def ptFold (bb : BBox) (p : ℚ × ℚ) : BBox :=
  ⟨min bb.minx p.1, min bb.miny p.2, max bb.maxx p.1, max bb.maxy p.2⟩

/-- Source `poly.bounding_box()`: min/max over the points of the
polygon; `none` models the failure on a pointless polygon. -/
def bounding_box : List (ℚ × ℚ) → Option BBox
  | [] => none
  | p :: ps => some (ps.foldl ptFold ⟨p.1, p.2, p.1, p.2⟩)

/-- Merge two bounding boxes (the scalar min/max folds of the source). -/
def bbJoin (a b : BBox) : BBox :=
  ⟨min a.minx b.minx, min a.miny b.miny, max a.maxx b.maxx, max a.maxy b.maxy⟩

/-- The union bounding box over a polygon list: the box of the first
polygon, folded with the box of each later polygon. -/
def unionBB : List (List (ℚ × ℚ)) → Option BBox
  | [] => none
  | p :: ps =>
    match bounding_box p with
    | none => none
    | some bb0 => ps.foldlM (fun acc q => (bounding_box q).map (bbJoin acc)) bb0

/-- Source `poly.translate(dx, dy)` applied to every point. -/
def translatePoly (dx dy : ℚ) (p : List (ℚ × ℚ)) : List (ℚ × ℚ) :=
  p.map (fun q => (q.1 + dx, q.2 + dy))

/-- Translate a bounding box. -/
def bbShift (bb : BBox) (dx dy : ℚ) : BBox :=
  ⟨bb.minx + dx, bb.miny + dy, bb.maxx + dx, bb.maxy + dy⟩

/-- The shared body of `humancad` and `datecad` on the polygon list
returned by the external `gdstk.text`: if the list is non-empty, fold the
union bounding box and translate every polygon by the negative of its
center; otherwise return the empty list unchanged.  `none` models the
runtime failure of `bounding_box` on a pointless polygon. -/
def centerGlyphs (text : List (List (ℚ × ℚ))) : Option (List (List (ℚ × ℚ))) :=
  if text.isEmpty then some text
  else
    match unionBB text with
    | none => none
    | some bb =>
      some (text.map (translatePoly (-((bb.minx + bb.maxx) / 2)) (-((bb.miny + bb.maxy) / 2))))

/-- Function `humancad`: centers the glyph polygons of the label. -/
def humancad (text : List (List (ℚ × ℚ))) : Option (List (List (ℚ × ℚ))) :=
  centerGlyphs text

/-- Function `datecad`: centers the glyph polygons of the date string. -/
def datecad (today_text : List (List (ℚ × ℚ))) : Option (List (List (ℚ × ℚ))) :=
  centerGlyphs today_text

/-- Boolean test that the first list is an initial segment of the second. -/
def frontMatches : List Char → List Char → Bool
  | [], _ => true
  | _ :: _, [] => false
  | a :: as, b :: bs => a == b && frontMatches as bs

/-- Boolean `endswith`: the pattern is a final segment of the list. -/
def endsWithB (l pat : List Char) : Bool := frontMatches pat.reverse l.reverse

/-- Boolean test that `v` occurs as a contiguous segment of the second list. -/
def hasSeg (v : List Char) : List Char → Bool
  | [] => v.isEmpty
  | c :: rest => frontMatches v (c :: rest) || hasSeg v rest

/-- Source `s.lower()` character-wise (ASCII). -/
def lowerData (s : String) : List Char := s.data.map Char.toLower

/-- The output-filename fixup: append a `.gds` suffix when the lowercased
name does not already end with it. -/
def ensureGds (output_gds_file : String) : String :=
  if endsWithB (lowerData output_gds_file) (".gds".data) then output_gds_file
  else output_gds_file ++ ".gds"

/-- A single-quote character as a string (avoids escape sequences). -/
def sq : String := String.singleton (Char.ofNat 39)

/-- Source `str(InvalidBarcodeLength(b))`: the default message, which
does not mention the offending barcode. -/
def invalidLengthStr (_barcode : String) : String :=
  "Barcode must be between 1 and 12 characters long"

/-- Source `str(InvalidBarcodeCharacter(c))`: the default message
followed by the quoted offending character. -/
def invalidCharacterStr (character : Char) : String :=
  "Invalid Character in the Barcode String: " ++ sq ++ String.singleton character ++ sq

/-- The line printed by the barcode retry loop for a caught error. -/
def barcodeErrorLine : BarcodeError → String
  | BarcodeError.invalidLength b =>
    "Error: " ++ invalidLengthStr b ++ ". Please use only A-Z, 0-9, and the characters: - . $ / + %"
  | BarcodeError.invalidCharacter c =>
    "Error: " ++ invalidCharacterStr c ++ ". Please use only A-Z, 0-9, and the characters: - . $ / + %"

/-- The line printed by the file retry loops for a missing file. -/
def fileNotFoundLine (filename : String) : String :=
  "Error: The file " ++ sq ++ filename ++ sq ++ " was not found. Please try again."

/-- The line printed by the cell menu loop for an out-of-range index:
a fixed string, independent of the chosen index. -/
def invalidMenuLine (_choice : ℤ) : String := "Invalid number."

/-! ### Encoder lemmas -/

/-- Every pattern in the symbology table has exactly 10 tokens. -/
lemma codeTable_pattern_length : ∀ e ∈ codeTable, e.2.length = 10 := by decide

/-- A successful dictionary lookup returns a 10-token pattern. -/
lemma codedict_length {c : Char} {p : List ℚ} (h : codedict c = some p) :
    p.length = 10 := by
  unfold codedict at h
  cases hf : codeTable.find? (fun e => e.1 == c) with
  | none => rw [hf] at h; simp at h
  | some e =>
    rw [hf] at h
    obtain rfl : e.2 = p := by simpa using h
    exact codeTable_pattern_length e (List.mem_of_find?_eq_some hf)

/-- When every character is a key, the encoder loop returns the
concatenation of the looked-up patterns in order. -/
lemma encodeChars_eq_flatten : ∀ {l : List Char}, (∀ c ∈ l, (codedict c).isSome) →
    encodeChars l = some ((l.map (fun c => (codedict c).getD [])).flatten) := by
  intro l
  induction l with
  | nil => intro _; rfl
  | cons c cs ih =>
    intro h
    obtain ⟨p, hp⟩ := Option.isSome_iff_exists.mp (h c (by simp))
    have hcs := ih (fun d hd => h d (List.mem_cons_of_mem _ hd))
    simp [encodeChars, hp, hcs]

/-- A character outside the table makes the encoder loop fail. -/
lemma encodeChars_bad : ∀ {l : List Char}, (∃ c ∈ l, codedict c = none) →
    encodeChars l = none := by
  intro l
  induction l with
  | nil => intro h; simp at h
  | cons c cs ih =>
    intro h
    obtain ⟨d, hd, hdn⟩ := h
    rcases List.mem_cons.mp hd with rfl | hmem
    · simp [encodeChars, hdn]
    · cases hc : codedict c <;> simp [encodeChars, hc, ih ⟨d, hmem, hdn⟩]

/-- The concatenated patterns of an all-keys list have `10 * n` tokens. -/
lemma encodeChars_length : ∀ {l : List Char} {m : List ℚ},
    (∀ c ∈ l, (codedict c).isSome) → encodeChars l = some m →
    m.length = 10 * l.length := by
  intro l
  induction l with
  | nil =>
    intro m _ hm
    cases hm
    rfl
  | cons c cs ih =>
    intro m h hm
    obtain ⟨p, hp⟩ := Option.isSome_iff_exists.mp (h c (by simp))
    cases hrest : encodeChars cs with
    | none => rw [encodeChars, hp, hrest] at hm; cases hm
    | some rest =>
      rw [encodeChars, hp, hrest] at hm
      cases hm
      have h1 := codedict_length hp
      have h2 := ih (fun d hd => h d (List.mem_cons_of_mem _ hd)) hrest
      simp [List.length_append, h1, h2, List.length_cons]
      ring

lemma startstop_length : startstop.length = 10 := by decide

lemma take_len_append (a b : List ℚ) : (a ++ b).take a.length = a := by simp

lemma drop_len_append (a b : List ℚ) : (a ++ b).drop a.length = b := by simp

/-- Lemma: `find?` returns the first element satisfying the predicate. -/
lemma find?_first {p : Char → Bool} :
    ∀ (pre : List Char) (c : Char) (post : List Char),
      (∀ d ∈ pre, p d = false) → p c = true →
      (pre ++ c :: post).find? p = some c := by
  intro pre
  induction pre with
  | nil =>
    intro c post _ hc
    rw [List.nil_append]
    exact List.find?_cons_of_pos _ hc
  | cons a as ih =>
    intro c post hpre hc
    have ha : p a = false := hpre a (by simp)
    rw [List.cons_append, List.find?_cons_of_neg _ (by simp [ha])]
    exact ih c post (fun d hd => hpre d (by simp [hd])) hc

/-! ### Claim C1 -/

/-- Claim C1: for every valid input string (length 1..12, every character a
key of the symbology table after upper-casing), the encoder outputs the
start/stop pattern, then the 10-token pattern of each character in input order,
then the start/stop pattern again, concatenated into one flat sequence;
hence the output length is `10 * (len + 2)` and the first 10 tokens equal
the last 10 tokens (both being the start/stop pattern). -/
theorem str2code_valid_output (l : List Char)
    (h1 : 1 ≤ l.length) (h2 : l.length ≤ 12)
    (h3 : ∀ c ∈ l.map Char.toUpper, (codedict c).isSome) :
    str2code (l.map Char.toUpper) =
      some (startstop ++ flatPatterns (l.map Char.toUpper) ++ startstop) ∧
    (startstop ++ flatPatterns (l.map Char.toUpper) ++ startstop).length
      = 10 * (l.length + 2) ∧
    (startstop ++ flatPatterns (l.map Char.toUpper) ++ startstop).take 10
      = (startstop ++ flatPatterns (l.map Char.toUpper) ++ startstop).drop
          ((startstop ++ flatPatterns (l.map Char.toUpper) ++ startstop).length - 10) ∧
    (startstop ++ flatPatterns (l.map Char.toUpper) ++ startstop).take 10 = startstop := by
  have hm : encodeChars (l.map Char.toUpper) = some (flatPatterns (l.map Char.toUpper)) :=
    encodeChars_eq_flatten h3
  have hlen : (flatPatterns (l.map Char.toUpper)).length = 10 * l.length := by
    have h := encodeChars_length h3 hm
    simpa using h
  have htake : (startstop ++ flatPatterns (l.map Char.toUpper) ++ startstop).take 10
      = startstop := by
    rw [show (10 : ℕ) = startstop.length from rfl]
    exact take_len_append startstop _
  have hlentot : (startstop ++ flatPatterns (l.map Char.toUpper) ++ startstop).length
      = 10 * (l.length + 2) := by
    simp [List.length_append, startstop_length, hlen]
    ring
  have hdrop : (startstop ++ flatPatterns (l.map Char.toUpper) ++ startstop).drop
      ((startstop ++ flatPatterns (l.map Char.toUpper) ++ startstop).length - 10)
      = startstop := by
    rw [hlentot]
    have hsub : 10 * (l.length + 2) - 10
        = ((startstop ++ flatPatterns (l.map Char.toUpper))).length := by
      simp [List.length_append, startstop_length, hlen]
      omega
    rw [hsub]
    exact drop_len_append _ _
  refine ⟨?_, hlentot, ?_, htake⟩
  · rw [str2code, hm]
    rfl
  · rw [htake, hdrop]

/-- Concrete instance of C1 at the input `"ab1"`. -/
theorem str2code_valid_output_wit :
    str2code (['a', 'b', '1'].map Char.toUpper) =
      some (startstop ++ flatPatterns (['a', 'b', '1'].map Char.toUpper) ++ startstop) ∧
    (startstop ++ flatPatterns (['a', 'b', '1'].map Char.toUpper) ++ startstop).length
      = 10 * (['a', 'b', '1'].length + 2) := by
  have h := str2code_valid_output ['a', 'b', '1'] (by decide) (by decide) (by decide)
  exact ⟨h.1, h.2.1⟩

/-! ### Claim C10 -/

/-- Claim C10: `str2code` itself performs no validation: it succeeds on
every all-keys input regardless of length (empty and 13-character inputs
included) and fails with a key-lookup error (modelled as `none`) on any
input containing a non-key character; the length and character-set checks
live only in the separate interactive validation (`validateBarcode`). -/
theorem str2code_no_validation (l : List Char) :
    ((∀ c ∈ l, (codedict c).isSome) → (str2code l).isSome) ∧
    ((∃ c ∈ l, codedict c = none) → str2code l = none) ∧
    str2code [] = some (startstop ++ startstop) ∧
    (str2code (List.replicate 13 'A')).isSome ∧
    str2code ['A', '#'] = none ∧
    validateBarcode "" = some (BarcodeError.invalidLength "") ∧
    validateBarcode "AAAAAAAAAAAAA"
      = some (BarcodeError.invalidLength "AAAAAAAAAAAAA") := by
  refine ⟨?_, ?_, by decide, by decide, by decide, by decide, by decide⟩
  · intro h
    rw [str2code, encodeChars_eq_flatten h]
    rfl
  · intro h
    rw [str2code, encodeChars_bad h]
    rfl

/-- Concrete instance of C10: the encoder succeeds on an all-keys input. -/
theorem str2code_no_validation_wit : (str2code ['A', 'B']).isSome :=
  (str2code_no_validation ['A', 'B']).1 (by decide)

/-! ### Claim C5 -/

/-- Claim C5: validation of the (upper-cased) barcode input: a length
outside 1..12 signals `InvalidBarcodeLength` carrying the offending
string; otherwise a non-key character signals `InvalidBarcodeCharacter`
carrying the first offending character in left-to-right scan order; an
input passing both checks signals no error. -/
theorem validateBarcode_spec (label : String) :
    (¬(1 ≤ label.length ∧ label.length ≤ 12) →
      validateBarcode label = some (BarcodeError.invalidLength label)) ∧
    (∀ pre c post, (1 ≤ label.length ∧ label.length ≤ 12) →
      label.data = pre ++ c :: post → (∀ d ∈ pre, (codedict d).isSome) →
      codedict c = none →
      validateBarcode label = some (BarcodeError.invalidCharacter c)) ∧
    ((1 ≤ label.length ∧ label.length ≤ 12) →
      (∀ c ∈ label.data, (codedict c).isSome) → validateBarcode label = none) := by
  refine ⟨?_, ?_, ?_⟩
  · intro h
    rw [validateBarcode, if_pos h]
  · intro pre c post hlen heq hpre hc
    rw [validateBarcode, if_neg (not_not_intro hlen)]
    have hall : (label.data.all fun d => (codedict d).isSome) = false := by
      rw [heq]
      simp [List.all_append, hc]
    have hfind : label.data.find? (fun d => !(codedict d).isSome) = some c := by
      rw [heq]
      apply find?_first
      · intro d hd
        simp [hpre d hd]
      · simp [hc]
    rw [hall]
    simp only [Bool.false_eq_true, if_false]
    rw [hfind]
  · intro hlen hall
    rw [validateBarcode, if_neg (not_not_intro hlen), if_pos]
    exact List.all_eq_true.mpr hall

/-- Concrete instances of C5: an invalid character is reported with the
first offender, an over-long string with the string itself, and a valid
string passes. -/
theorem validateBarcode_spec_wit :
    validateBarcode "AB#" = some (BarcodeError.invalidCharacter (Char.ofNat 35)) ∧
    validateBarcode "XYZXYZXYZXYZX"
      = some (BarcodeError.invalidLength "XYZXYZXYZXYZX") ∧
    validateBarcode "HELLO" = none := by
  refine ⟨?_, ?_, ?_⟩
  · exact (validateBarcode_spec "AB#").2.1 ['A', 'B'] (Char.ofNat 35) [] (by decide)
      (by decide) (by decide) (by decide)
  · exact (validateBarcode_spec "XYZXYZXYZXYZX").1 (by decide)
  · exact (validateBarcode_spec "HELLO").2.2 (by decide) (by decide)

/-! ### Renderer lemmas (Claim C2) -/

lemma sumAbs_cons (t : ℚ) (ts : List ℚ) : sumAbs (t :: ts) = |t| + sumAbs ts := by
  simp [sumAbs]

lemma sumAbs_nonneg (toks : List ℚ) : 0 ≤ sumAbs toks := by
  induction toks with
  | nil => simp [sumAbs]
  | cons t ts ih =>
    rw [sumAbs_cons]
    exact add_nonneg (abs_nonneg t) ih

/-- Every rectangle the renderer loop emits spans the bar height on the
given layer and lies between the starting cursor and the starting cursor
plus the total magnitude. -/
lemma barcadFrom_mem {l d : ℕ} : ∀ (toks : List ℚ) (a : ℚ) (r : Rect),
    r ∈ barcadFrom l d toks a →
    r.y1 = -(barheight / 2) ∧ r.y2 = barheight / 2 ∧ r.layer = l ∧ r.datatype = d ∧
    a ≤ r.x1 ∧ r.x1 < r.x2 ∧ r.x2 ≤ a + sumAbs toks := by
  intro toks
  induction toks with
  | nil =>
    intro a r hr
    simp [barcadFrom] at hr
  | cons t ts ih =>
    intro a r hr
    rw [barcadFrom] at hr
    rcases List.mem_append.mp hr with h1 | h2
    · by_cases ht : 0 < t
      · rw [if_pos ht] at h1
        have hr1 : r = ⟨a, -(barheight / 2), a + t, barheight / 2, l, d⟩ := by
          simpa using h1
        subst hr1
        refine ⟨rfl, rfl, rfl, rfl, le_refl _, by simpa using ht, ?_⟩
        rw [sumAbs_cons, ← add_assoc]
        have habs : t ≤ |t| := le_abs_self t
        have hs := sumAbs_nonneg ts
        calc a + t ≤ a + |t| := by linarith
          _ ≤ a + |t| + sumAbs ts := by linarith
      · rw [if_neg ht] at h1
        simp at h1
    · have h := ih (a + |t|) r h2
      obtain ⟨e1, e2, e3, e4, e5, e6, e7⟩ := h
      refine ⟨e1, e2, e3, e4, ?_, e6, ?_⟩
      · have : a ≤ a + |t| := by
          have := abs_nonneg t
          linarith
        linarith
      · rw [sumAbs_cons, ← add_assoc]
        linarith

/-- The renderer emits exactly one rectangle per positive token. -/
lemma barcadFrom_length {l d : ℕ} : ∀ (toks : List ℚ) (a : ℚ),
    (barcadFrom l d toks a).length = toks.countP (fun t => decide (0 < t)) := by
  intro toks
  induction toks with
  | nil => intro a; rfl
  | cons t ts ih =>
    intro a
    rw [barcadFrom, List.length_append, ih, List.countP_cons]
    by_cases ht : 0 < t
    · simp [ht]
      omega
    · simp [ht]

/-- The emitted rectangles are ordered left to right without overlap. -/
lemma barcadFrom_pairwise {l d : ℕ} : ∀ (toks : List ℚ) (a : ℚ),
    (barcadFrom l d toks a).Pairwise (fun r1 r2 => r1.x2 ≤ r2.x1) := by
  intro toks
  induction toks with
  | nil => intro a; simp [barcadFrom]
  | cons t ts ih =>
    intro a
    rw [barcadFrom, List.pairwise_append]
    refine ⟨?_, ih (a + |t|), ?_⟩
    · by_cases ht : 0 < t <;> simp [ht]
    · intro r1 hr1 r2 hr2
      by_cases ht : 0 < t
      · rw [if_pos ht] at hr1
        have hr1e : r1 = ⟨a, -(barheight / 2), a + t, barheight / 2, l, d⟩ := by
          simpa using hr1
        subst hr1e
        have h := (barcadFrom_mem ts (a + |t|) r2 hr2).2.2.2.2.1
        have habs : t ≤ |t| := le_abs_self t
        show a + t ≤ r2.x1
        linarith
      · rw [if_neg ht] at hr1
        simp at hr1

/-- The cursor fold computes the total magnitude. -/
lemma foldl_add_abs : ∀ (toks : List ℚ) (a : ℚ),
    toks.foldl (fun b t => b + |t|) a = a + sumAbs toks := by
  intro toks
  induction toks with
  | nil => intro a; simp [sumAbs]
  | cons t ts ih =>
    intro a
    rw [List.foldl_cons, ih, sumAbs_cons]
    ring

lemma finalCursor_eq (toks : List ℚ) : finalCursor toks = sumAbs toks := by
  rw [finalCursor, foldl_add_abs]
  ring

/-- The renderer loop agrees with the claim wording: for positive
tokens `x + tok` and `x + |tok|` coincide. -/
lemma barcadFrom_eq_renderSpec {l d : ℕ} : ∀ (toks : List ℚ) (a : ℚ),
    barcadFrom l d toks a = renderSpec l d toks a := by
  intro toks
  induction toks with
  | nil => intro a; rfl
  | cons t ts ih =>
    intro a
    rw [barcadFrom, renderSpec, ih]
    by_cases ht : 0 < t
    · rw [abs_of_pos ht]
    · rw [if_neg ht, if_neg ht]

/-- The renderer loop splits over list append, the cursor advancing by
the total magnitude of the first part. -/
lemma barcadFrom_append {l d : ℕ} : ∀ (xs ys : List ℚ) (a : ℚ),
    barcadFrom l d (xs ++ ys) a
      = barcadFrom l d xs a ++ barcadFrom l d ys (a + sumAbs xs) := by
  intro xs
  induction xs with
  | nil =>
    intro ys a
    show barcadFrom l d ys a = [] ++ barcadFrom l d ys (a + sumAbs [])
    rw [List.nil_append, show sumAbs [] = 0 from rfl, add_zero]
  | cons x xs ih =>
    intro ys a
    rw [List.cons_append, barcadFrom, barcadFrom, ih, sumAbs_cons,
      List.append_assoc, add_assoc]

/-- A run of non-positive tokens emits no rectangle. -/
lemma barcadFrom_nonpos {l d : ℕ} : ∀ (toks : List ℚ) (a : ℚ),
    (∀ m ∈ toks, ¬ 0 < m) → barcadFrom l d toks a = [] := by
  intro toks
  induction toks with
  | nil => intro a _; rfl
  | cons t ts ih =>
    intro a h
    rw [barcadFrom, if_neg (h t (by simp)), List.nil_append]
    exact ih _ (fun m hm => h m (List.mem_cons_of_mem _ hm))

/-- Claim C2: rendering a sequence of nonzero tokens emits exactly one
rectangle per positive-sign token, spanning `[x, x + |token|]`
horizontally (the renderer equals `renderSpec`, the verbatim transcription
of the claim) and the bar height vertically on the given (layer,
datatype), and advances the cursor by the magnitude of every token:
the rectangle count equals the number of positive tokens, the total
horizontal span (the final cursor) equals the sum of all magnitudes, the
rectangles lie left to right inside `[0, sumAbs]` without overlap, and
two bars with only negative tokens between them are consecutive in the
output and separated by a gap exactly the sum of the magnitudes of those
negative tokens. -/
theorem barcad_spec (toks : List ℚ) (l d : ℕ) (_hnz : ∀ t ∈ toks, t ≠ 0) :
    barcad toks l d = renderSpec l d toks 0 ∧
    (barcad toks l d).length = toks.countP (fun t => decide (0 < t)) ∧
    finalCursor toks = sumAbs toks ∧
    (∀ r ∈ barcad toks l d,
      r.y1 = -(barheight / 2) ∧ r.y2 = barheight / 2 ∧ r.layer = l ∧ r.datatype = d ∧
      0 ≤ r.x1 ∧ r.x1 < r.x2 ∧ r.x2 ≤ sumAbs toks) ∧
    (barcad toks l d).Pairwise (fun r1 r2 => r1.x2 ≤ r2.x1) ∧
    (∀ pre t mid u post, toks = pre ++ t :: (mid ++ u :: post) → 0 < t → 0 < u →
      (∀ m ∈ mid, m < 0) →
      ∃ rs1 rs2, barcad toks l d
          = rs1 ++ ⟨sumAbs pre, -(barheight / 2),
                sumAbs pre + t, barheight / 2, l, d⟩
              :: ⟨sumAbs pre + t + sumAbs mid, -(barheight / 2),
                sumAbs pre + t + sumAbs mid + u, barheight / 2, l, d⟩ :: rs2 ∧
        sumAbs pre + t + sumAbs mid - (sumAbs pre + t) = sumAbs mid) := by
  refine ⟨barcadFrom_eq_renderSpec toks 0, barcadFrom_length toks 0,
    finalCursor_eq toks, ?_, barcadFrom_pairwise toks 0, ?_⟩
  · intro r hr
    obtain ⟨e1, e2, e3, e4, e5, e6, e7⟩ := barcadFrom_mem toks 0 r hr
    exact ⟨e1, e2, e3, e4, e5, e6, by linarith⟩
  · intro pre t mid u post heq ht hu hmid
    subst heq
    have hmid2 : ∀ m ∈ mid, ¬ 0 < m := fun m hm => not_lt.mpr (le_of_lt (hmid m hm))
    have hshape : barcad (pre ++ t :: (mid ++ u :: post)) l d
        = barcadFrom l d pre 0
            ++ ⟨sumAbs pre, -(barheight / 2), sumAbs pre + t, barheight / 2, l, d⟩
            :: ⟨sumAbs pre + t + sumAbs mid, -(barheight / 2),
                sumAbs pre + t + sumAbs mid + u, barheight / 2, l, d⟩
            :: barcadFrom l d post (sumAbs pre + t + sumAbs mid + u) := by
      rw [barcad, barcadFrom_append, zero_add, barcadFrom, if_pos ht, abs_of_pos ht,
        barcadFrom_append, barcadFrom_nonpos mid (sumAbs pre + t) hmid2,
        List.nil_append, barcadFrom, if_pos hu, abs_of_pos hu]
      rfl
    exact ⟨barcadFrom l d pre 0,
      barcadFrom l d post (sumAbs pre + t + sumAbs mid + u), hshape, by ring⟩

/-- Concrete instance of C2 on the start/stop pattern at layer 4. -/
theorem barcad_spec_wit :
    (∀ t ∈ startstop, t ≠ 0) ∧
    barcad startstop 4 0 = renderSpec 4 0 startstop 0 ∧
    (barcad startstop 4 0).length = startstop.countP (fun t => decide (0 < t)) := by
  have h := barcad_spec startstop 4 0 (by decide)
  exact ⟨by decide, h.1, h.2.1⟩

/-! ### Resolver lemmas (Claims C3, C4) -/

/-- Every user layer is at most `max_user_layer`. -/
lemma le_max_user_layer {user : Finset LD} {q : LD} (hq : q ∈ user) :
    q.1 ≤ max_user_layer user := by
  rw [max_user_layer]
  have hmem : q.1 ∈ user.image Prod.fst := Finset.mem_image_of_mem _ hq
  rw [dif_pos ⟨q.1, hmem⟩]
  exact Finset.le_max' _ _ hmem

/-- Membership in the remap dictionary. -/
lemma mem_remap_dict {user template : Finset LD} {p q : LD} :
    (p, q) ∈ remap_dict user template ↔
      p ∈ all_template_layers_datatypes template ∧ q = (new_layer user, p.2) := by
  rw [remap_dict, Finset.mem_image]
  constructor
  · rintro ⟨old, hold, heq⟩
    obtain ⟨h1, h2⟩ := Prod.mk.injEq .. ▸ heq
    exact ⟨h1 ▸ hold, h2.symm ▸ by rw [← h1]⟩
  · rintro ⟨hp, rfl⟩
    exact ⟨p, hp, rfl⟩

/-- Claim C3: with reserved pair `(4, 0)`: when `conflicts` is empty the
resolver applies no remapping and the barcode target layer is 4; when it
is non-empty the target layer is `new_layer = max user layer + 1`
(default 0 for an empty user set) and the remap dictionary sends exactly
the pairs of `all_template_layers_datatypes` (template pairs plus the
reserved pair) to `(new_layer, original datatype)`.  In particular
`{(1,0)}` vs `{(2,0)}` gives no conflict and target 4, while `{(4,0)}`
vs `{(2,0)}` gives `new_layer = 5` with remap `(2,0) ↦ (5,0)` and
`(4,0) ↦ (5,0)`. -/
theorem resolve_spec (user template : Finset LD) :
    (conflicts user template = ∅ → resolve user template = (none, 4)) ∧
    ((conflicts user template).Nonempty →
      resolve user template
        = (some (remap_dict user template), max_user_layer user + 1) ∧
      (∀ p q, (p, q) ∈ remap_dict user template ↔
        p ∈ all_template_layers_datatypes template ∧ q = (new_layer user, p.2)) ∧
      (user = ∅ → new_layer user = 1)) ∧
    resolve {(1, 0)} {(2, 0)} = (none, 4) ∧
    resolve {(4, 0)} {(2, 0)} = (some {((2, 0), (5, 0)), ((4, 0), (5, 0))}, 5) := by
  refine ⟨?_, ?_, by decide, by decide⟩
  · intro h
    rw [resolve, if_neg (by rw [h]; exact Finset.not_nonempty_empty)]
    rfl
  · intro h
    refine ⟨by rw [resolve, if_pos h]; rfl, fun p q => mem_remap_dict, ?_⟩
    intro hu
    rw [new_layer, max_user_layer, dif_neg (by rw [hu]; simp)]

/-- Concrete instance of C3: the conflict branch at `{(4,0)}` vs `{(2,0)}`. -/
theorem resolve_spec_wit :
    resolve {(4, 0)} {(2, 0)}
      = (some (remap_dict {(4, 0)} {(2, 0)}), max_user_layer {(4, 0)} + 1) :=
  ((resolve_spec {(4, 0)} {(2, 0)}).2.1 (by decide)).1

/-- Claim C4: in every non-empty-conflicts case, each pair in the range
of the remap dictionary — the barcode target pair `(new_layer, 0)`
included — has a layer component strictly above every user-design layer,
so the remapped template plane is disjoint from the user design
(layer, datatype) set: zero layer-plane collisions. -/
theorem remap_no_collision (user template : Finset LD)
    (_hconf : (conflicts user template).Nonempty) :
    (∀ pr ∈ remap_dict user template, ∀ q ∈ user, q.1 < pr.2.1) ∧
    (∀ q ∈ user, q.1 < new_layer user) ∧
    (new_layer user, 0) ∉ user ∧
    ((all_template_layers_datatypes template).image
        (fun p => (new_layer user, p.2)) ∩ user) = ∅ := by
  have hlt : ∀ q ∈ user, q.1 < new_layer user := by
    intro q hq
    have := le_max_user_layer hq
    rw [new_layer]
    omega
  refine ⟨?_, hlt, ?_, ?_⟩
  · intro pr hpr q hq
    obtain ⟨old, hold, heq⟩ := Finset.mem_image.mp hpr
    have : pr.2.1 = new_layer user := by rw [← heq]
    rw [this]
    exact hlt q hq
  · intro hmem
    exact absurd (hlt _ hmem) (by simp)
  · rw [Finset.eq_empty_iff_forall_not_mem]
    intro pr hpr
    obtain ⟨him, hu⟩ := Finset.mem_inter.mp hpr
    obtain ⟨old, hold, heq⟩ := Finset.mem_image.mp him
    have h1 : pr.1 = new_layer user := by rw [← heq]
    have h2 := hlt pr hu
    omega

/-- Concrete instance of C4 at `{(4,0)}` vs `{(2,0)}`. -/
theorem remap_no_collision_wit :
    ((all_template_layers_datatypes {(2, 0)}).image
        (fun p => (new_layer {(4, 0)}, p.2)) ∩ {(4, 0)}) = ∅ :=
  (remap_no_collision {(4, 0)} {(2, 0)} (by decide)).2.2.2

/-! ### Centering lemmas (Claim C6) -/

lemma ptFold_shift (bb : BBox) (p : ℚ × ℚ) (dx dy : ℚ) :
    ptFold (bbShift bb dx dy) (p.1 + dx, p.2 + dy) = bbShift (ptFold bb p) dx dy := by
  simp [ptFold, bbShift, min_add_add_right, max_add_add_right]

lemma foldl_ptFold_shift (dx dy : ℚ) : ∀ (ps : List (ℚ × ℚ)) (bb : BBox),
    (ps.map (fun q => (q.1 + dx, q.2 + dy))).foldl ptFold (bbShift bb dx dy)
      = bbShift (ps.foldl ptFold bb) dx dy := by
  intro ps
  induction ps with
  | nil => intro bb; rfl
  | cons p ps ih =>
    intro bb
    rw [List.map_cons, List.foldl_cons, List.foldl_cons, ptFold_shift, ih]

lemma bounding_box_shift (dx dy : ℚ) (p : List (ℚ × ℚ)) :
    bounding_box (translatePoly dx dy p)
      = (bounding_box p).map (fun bb => bbShift bb dx dy) := by
  cases p with
  | nil => rfl
  | cons q qs =>
    show some ((qs.map (fun r => (r.1 + dx, r.2 + dy))).foldl ptFold
        (bbShift ⟨q.1, q.2, q.1, q.2⟩ dx dy))
      = some (bbShift (qs.foldl ptFold ⟨q.1, q.2, q.1, q.2⟩) dx dy)
    rw [foldl_ptFold_shift]

lemma bbJoin_shift (a b : BBox) (dx dy : ℚ) :
    bbJoin (bbShift a dx dy) (bbShift b dx dy) = bbShift (bbJoin a b) dx dy := by
  simp [bbJoin, bbShift, min_add_add_right, max_add_add_right]

lemma foldlM_join_shift (dx dy : ℚ) : ∀ (ps : List (List (ℚ × ℚ))) (bb : BBox),
    (ps.map (translatePoly dx dy)).foldlM
        (fun acc q => (bounding_box q).map (bbJoin acc)) (bbShift bb dx dy)
      = (ps.foldlM (fun acc q => (bounding_box q).map (bbJoin acc)) bb).map
          (fun b => bbShift b dx dy) := by
  intro ps
  induction ps with
  | nil => intro bb; rfl
  | cons p ps ih =>
    intro bb
    rw [List.map_cons, List.foldlM_cons, List.foldlM_cons]
    cases hb : bounding_box p with
    | none =>
      rw [show bounding_box (translatePoly dx dy p) = none by
        rw [bounding_box_shift, hb]; rfl]
      rfl
    | some pbb =>
      rw [show bounding_box (translatePoly dx dy p)
          = some (bbShift pbb dx dy) by rw [bounding_box_shift, hb]; rfl]
      show (ps.map (translatePoly dx dy)).foldlM _
          (bbJoin (bbShift bb dx dy) (bbShift pbb dx dy)) = _
      rw [bbJoin_shift, ih]
      rfl

lemma unionBB_shift (dx dy : ℚ) (text : List (List (ℚ × ℚ))) :
    unionBB (text.map (translatePoly dx dy))
      = (unionBB text).map (fun b => bbShift b dx dy) := by
  cases text with
  | nil => rfl
  | cons p ps =>
    rw [List.map_cons, unionBB, unionBB]
    cases hb : bounding_box p with
    | none =>
      rw [show bounding_box (translatePoly dx dy p) = none by
        rw [bounding_box_shift, hb]; rfl]
      rfl
    | some bb0 =>
      rw [show bounding_box (translatePoly dx dy p)
          = some (bbShift bb0 dx dy) by rw [bounding_box_shift, hb]; rfl]
      exact foldlM_join_shift dx dy ps bb0

/-- Claim C6: when the glyph polygons have a union bounding box, the
label/date renderer translates every polygon by the negative of the
center of the box, and the bounding box of the result is centered at the
origin; an empty polygon list skips the bounding-box step entirely and
is returned as-is.  `humancad` and `datecad` share this body. -/
theorem centerGlyphs_spec (text : List (List (ℚ × ℚ))) :
    (text = [] → centerGlyphs text = some text) ∧
    (∀ bb, unionBB text = some bb →
      centerGlyphs text
        = some (text.map (translatePoly (-((bb.minx + bb.maxx) / 2))
            (-((bb.miny + bb.maxy) / 2)))) ∧
      unionBB (text.map (translatePoly (-((bb.minx + bb.maxx) / 2))
            (-((bb.miny + bb.maxy) / 2))))
        = some (bbShift bb (-((bb.minx + bb.maxx) / 2)) (-((bb.miny + bb.maxy) / 2))) ∧
      (bbShift bb (-((bb.minx + bb.maxx) / 2)) (-((bb.miny + bb.maxy) / 2))).minx
        + (bbShift bb (-((bb.minx + bb.maxx) / 2)) (-((bb.miny + bb.maxy) / 2))).maxx = 0 ∧
      (bbShift bb (-((bb.minx + bb.maxx) / 2)) (-((bb.miny + bb.maxy) / 2))).miny
        + (bbShift bb (-((bb.minx + bb.maxx) / 2)) (-((bb.miny + bb.maxy) / 2))).maxy = 0) ∧
    humancad text = centerGlyphs text ∧
    datecad text = centerGlyphs text := by
  refine ⟨?_, ?_, rfl, rfl⟩
  · intro h
    subst h
    rfl
  · intro bb hbb
    have hne : text.isEmpty = false := by
      cases text with
      | nil => rw [unionBB] at hbb; cases hbb
      | cons p ps => rfl
    refine ⟨?_, ?_, ?_, ?_⟩
    · rw [centerGlyphs, hne]
      simp only [Bool.false_eq_true, if_false]
      rw [hbb]
    · rw [unionBB_shift, hbb]
      rfl
    · show bb.minx + -((bb.minx + bb.maxx) / 2) + (bb.maxx + -((bb.minx + bb.maxx) / 2)) = 0
      ring
    · show bb.miny + -((bb.miny + bb.maxy) / 2) + (bb.maxy + -((bb.miny + bb.maxy) / 2)) = 0
      ring

/-- Concrete instance of C6 on two tiny polygons. -/
theorem centerGlyphs_spec_wit :
    centerGlyphs [[(0, 0), (2, 0)], [(0, 2)]]
      = some ([[((0 : ℚ), (0 : ℚ)), (2, 0)], [(0, 2)]].map
          (translatePoly (-((((0 : ℚ)) + 2) / 2)) (-((((0 : ℚ)) + 2) / 2)))) :=
  ((centerGlyphs_spec [[(0, 0), (2, 0)], [(0, 2)]]).2.1 ⟨0, 0, 2, 2⟩ (by decide)).1

/-! ### Symbology table invariants (Claim C7) -/

/-- Counterexample to Claim C7 as stated: the allowed alphabet the claim
lists (A–Z, 0–9, the specials `- . $ / + %`, and space) has 43 distinct
entries, not 44, and the symbology table likewise has 43 entries. -/
theorem code39_table_cex :
    codeTable.length = 43 ∧ specAlphabet.length = 43 ∧ specAlphabet.Nodup ∧
    ¬(codeTable.length = 44 ∨ specAlphabet.length = 44) := by decide

/-- Claim C7 (amended to a 43-entry alphabet): every symbol pattern and
the start/stop pattern have exactly 10 tokens, each of magnitude exactly
narrow (`0.200 × scale`) or wide (`0.450 × scale`), never zero, with
wide = narrow × 2.25; the table is total over the 43-entry alphabet
A–Z, 0–9, `- . $ / + %`, space. -/
theorem code39_table_inv :
    startstop.length = 10 ∧
    (∀ t ∈ startstop, (|t| = nb ∨ |t| = wb) ∧ t ≠ 0) ∧
    (∀ e ∈ codeTable, e.2.length = 10 ∧ ∀ t ∈ e.2, (|t| = nb ∨ |t| = wb) ∧ t ≠ 0) ∧
    specAlphabet.length = 43 ∧ specAlphabet.Nodup ∧
    (∀ c ∈ specAlphabet, (codedict c).isSome) ∧
    nb = (200 / 1000) * scale ∧ wb = (450 / 1000) * scale ∧ wb = nb * (9 / 4) := by
  refine ⟨by decide, by decide, by decide, by decide, by decide, by decide, ?_, ?_, ?_⟩
  · norm_num [nb, scale]
  · norm_num [wb, scale]
  · norm_num [wb, nb]

/-- Concrete instance of C7: the table is defined at the key `A`. -/
theorem code39_table_inv_wit : (codedict (Char.ofNat 65)).isSome :=
  code39_table_inv.2.2.2.2.2.1 (Char.ofNat 65) (by decide)

/-! ### Output filename suffix (Claim C8) -/

lemma frontMatches_self_app : ∀ (v b : List Char), frontMatches v (v ++ b) = true := by
  intro v
  induction v with
  | nil => intro b; rfl
  | cons c cs ih =>
    intro b
    show (c == c && frontMatches cs (cs ++ b)) = true
    simp [ih]

lemma endsWithB_app (l pat : List Char) : endsWithB (l ++ pat) pat = true := by
  rw [endsWithB, List.reverse_append]
  exact frontMatches_self_app _ _

lemma lowerData_app (s t : String) : lowerData (s ++ t) = lowerData s ++ lowerData t := by
  rw [lowerData, lowerData, lowerData, String.data_append, List.map_append]

/-- Counterexample to Claim C8 as stated: a name already carrying the
upper-case suffix `.GDS` is used unchanged, so the name used for the
final write does not end with the literal suffix `.gds`. -/
theorem ensureGds_cex :
    ensureGds "A.GDS" = "A.GDS" ∧
    endsWithB ("A.GDS").data (".gds").data = false := by decide

/-- Claim C8 (amended: the suffix test is case-insensitive, since the
code lowercases the name before testing): the lowercasing of the name
used for the final write always ends with `.gds`; a name whose
lowercasing already ends with `.gds` is used unchanged, and otherwise
`.gds` is appended. -/
theorem ensureGds_spec (name : String) :
    endsWithB (lowerData (ensureGds name)) (".gds").data = true ∧
    (endsWithB (lowerData name) (".gds").data = true → ensureGds name = name) ∧
    (endsWithB (lowerData name) (".gds").data = false →
      ensureGds name = name ++ ".gds") := by
  by_cases h : endsWithB (lowerData name) (".gds").data = true
  · refine ⟨?_, fun _ => ?_, fun hf => ?_⟩
    · rw [ensureGds, if_pos h]
      exact h
    · rw [ensureGds, if_pos h]
    · rw [hf] at h
      cases h
  · have hcond : ¬(endsWithB (lowerData name) (".gds").data = true) := h
    refine ⟨?_, fun ht => absurd ht hcond, fun _ => ?_⟩
    · rw [ensureGds, if_neg hcond, lowerData_app,
        show lowerData ".gds" = (".gds").data by decide]
      exact endsWithB_app _ _
    · rw [ensureGds, if_neg hcond]

/-- Concrete instance of C8: the suffix is appended to a bare name. -/
theorem ensureGds_spec_wit : ensureGds "merged" = "merged" ++ ".gds" :=
  (ensureGds_spec "merged").2.2 (by decide)

/-! ### Error message contents (Claim C9) -/

lemma hasSeg_nil_left : ∀ l : List Char, hasSeg [] l = true := by
  intro l
  cases l with
  | nil => rfl
  | cons c rest => rfl

lemma hasSeg_cons_of (v : List Char) (a : Char) (l : List Char)
    (h : hasSeg v l = true) : hasSeg v (a :: l) = true := by
  show (frontMatches v (a :: l) || hasSeg v l) = true
  rw [h, Bool.or_true]

lemma hasSeg_here (v b : List Char) : hasSeg v (v ++ b) = true := by
  cases v with
  | nil => exact hasSeg_nil_left b
  | cons c cs =>
    show (frontMatches (c :: cs) ((c :: cs) ++ b) || hasSeg (c :: cs) (cs ++ b)) = true
    rw [frontMatches_self_app, Bool.true_or]

lemma hasSeg_mono : ∀ (a v l : List Char), hasSeg v l = true → hasSeg v (a ++ l) = true := by
  intro a
  induction a with
  | nil => intro v l h; exact h
  | cons x xs ih => intro v l h; exact hasSeg_cons_of _ _ _ (ih v l h)

/-- Counterexample to Claim C9 as stated: the message printed for an
over-long barcode does not contain the offending string, and the message
printed for an out-of-range cell-menu index is the fixed text
`Invalid number.`, which does not contain the chosen index. -/
theorem error_message_cex :
    hasSeg ("XYZ0XYZ0XYZ0X").data
        (barcodeErrorLine (BarcodeError.invalidLength "XYZ0XYZ0XYZ0X")).data = false ∧
    hasSeg ("9").data (invalidMenuLine 9).data = false := by decide

/-- Claim C9 (amended): the missing-file and invalid-character messages
do name the offending value, but the invalid-length message is a fixed
string that does not include the offending barcode, and the out-of-range
menu message is the fixed `Invalid number.` that does not include the
chosen index. -/
theorem error_message_values (name : String) (c : Char) (b : String) (i : ℤ) :
    hasSeg name.data (fileNotFoundLine name).data = true ∧
    hasSeg (String.singleton c).data
        (barcodeErrorLine (BarcodeError.invalidCharacter c)).data = true ∧
    barcodeErrorLine (BarcodeError.invalidLength b)
      = "Error: " ++ "Barcode must be between 1 and 12 characters long"
          ++ ". Please use only A-Z, 0-9, and the characters: - . $ / + %" ∧
    invalidLengthStr b = "Barcode must be between 1 and 12 characters long" ∧
    invalidMenuLine i = "Invalid number." := by
  refine ⟨?_, ?_, rfl, rfl, rfl⟩
  · have h1 : (fileNotFoundLine name).data
        = ("Error: The file ").data ++ (sq.data ++ (name.data ++ (sq.data
            ++ (" was not found. Please try again.").data))) := by
      simp [fileNotFoundLine, String.data_append]
    rw [h1]
    exact hasSeg_mono _ _ _ (hasSeg_mono _ _ _ (hasSeg_here _ _))
  · have h2 : (barcodeErrorLine (BarcodeError.invalidCharacter c)).data
        = ("Error: ").data ++ (("Invalid Character in the Barcode String: ").data
            ++ (sq.data ++ ((String.singleton c).data ++ (sq.data
            ++ (". Please use only A-Z, 0-9, and the characters: - . $ / + %").data)))) := by
      simp [barcodeErrorLine, invalidCharacterStr, String.data_append]
    rw [h2]
    exact hasSeg_mono _ _ _ (hasSeg_mono _ _ _ (hasSeg_mono _ _ _ (hasSeg_here _ _)))

/-- Concrete instance of C9 (amended): the menu message is the fixed text. -/
theorem error_message_values_wit : invalidMenuLine 9 = "Invalid number." :=
  (error_message_values "f" (Char.ofNat 81) "" 9).2.2.2.2

end Reticle
